import Mathlib

/-!
Shallow embedding of the token-rotation request helper
(`fetchWithTokenRotation` and its private helpers `getSharedTokens`,
`getPersonalToken`) from the source file of the repository.

The helper composes three external collaborators (session storage,
the local user profile store, the remote token refresh operation, the
log sink and the event bus).  Their observable behaviour at one call is
captured by an `Env` record (what the stores contain, what the refresh
operation and each network attempt would return), and every observable
side effect of the helper is recorded in an event trace.  Results model
the returned promise: `Except.error m` is a rejection whose error
carries message `m`, `Except.ok (body, tok)` is resolution with
`{ data: body, successfulToken: tok }`.
-/

set_option autoImplicit false

namespace TokenRotation

/-- A stored token record `{ token, createdAt }` as used by the source. -/
structure Token where
  token : String
  createdAt : String
deriving Repr, DecidableEq

/-- The parts of a parsed JSON response body that the source inspects:
`data.error?.message` (`errMsg`), `data.message` (`topMsg`); `rest`
stands for the remainder of the body, so that distinct bodies stay
distinct and the returned `data` value can be compared.  A field holding
a JSON string is `some s`; an absent (or non-string) field is `none`. -/
structure JsonBody where
  errMsg : Option String
  topMsg : Option String
  rest : String
deriving Repr, DecidableEq

/-- Outcome of one `fetch` + `response.json()` round trip at the
transport layer: the fetch promise rejects (`netError`), the body fails
to parse as JSON (`parseError`), or a response arrives with an HTTP
status and a parsed JSON body (`response`). -/
inductive AttemptOutcome where
  | netError (msg : String)
  | parseError (msg : String)
  | response (status : Nat) (body : JsonBody)
deriving Repr, DecidableEq

/-- The observable state of the collaborators during one call.
`personalAuthToken` is `currentUser.personalAuthToken` from
localStorage (`none` when the user record is missing, unparsable or has
no such field); `sharedCache` is the parsed `veoAuthTokens` array from
sessionStorage (`none` when missing or unparsable); `refreshResult` is
what `getVeoAuthTokens()` would do (`none` = the promise rejects,
`some l` = it resolves with the list `l`; a `null` resolution behaves
exactly like `some []` in the guarded code path and is merged with it);
`fetchOutcome k` is the outcome of the `k`-th network attempt issued by
the call (attempts are strictly sequential, one per candidate). -/
structure Env where
  personalAuthToken : Option String
  sharedCache : Option (List Token)
  refreshResult : Option (List Token)
  fetchOutcome : Nat → AttemptOutcome

/-- One `addLogEntry` record with the fields the source passes. -/
structure LogEntry where
  model : String
  prompt : String
  output : String
  tokenCount : Nat
  status : String
  error : Option String
deriving Repr, DecidableEq

/-- Observable side effects of one call, in order of occurrence. -/
inductive Event where
  | personalRead
  | sharedCacheRead
  | refreshCall
  | persistCache (tokens : List Token)
  | fetchCall (token : String)
  | audit (entry : LogEntry)
  | personalTokenFailed
deriving Repr, DecidableEq

/-- `getPersonalToken` from the source: reads
`currentUser.personalAuthToken` and wraps a truthy value with the
`createdAt` sentinel `"personal"`.  An empty string is falsy in
JavaScript, hence treated as absent. -/
def getPersonalToken (env : Env) : Option Token :=
  match env.personalAuthToken with
  | some s => if s = "" then none else some ⟨s, "personal"⟩
  | none => none

/-- `getSharedTokens` from the source: the cached array when it parses
and is non-empty, otherwise `[]`. -/
def getSharedTokens (env : Env) : List Token :=
  match env.sharedCache with
  | some l => if l.length > 0 then l else []
  | none => []

/-- The personal token as a zero- or one-element prefix of the
candidate list (source line `...(personalToken ? [personalToken] : [])`). -/
def personalPart (env : Env) : List Token :=
  match getPersonalToken env with
  | some p => [p]
  | none => []

/-- The shared tokens the rotation path ends up using: the cache when it
is non-empty, otherwise the refresh result when that is non-empty,
otherwise `[]`. -/
def sharedUsed (env : Env) : List Token :=
  let shared := getSharedTokens env
  if shared.length = 0 then
    match env.refreshResult with
    | some newTokens => if newTokens.length > 0 then newTokens else []
    | none => []
  else shared

/-- The rotation branch of candidate construction (source lines 83-105):
read the personal token, read the cache, re-fetch when the cache is
empty (persisting a non-empty refresh result), and concatenate the
personal token ahead of the shared ones.  Returns the candidate list
together with the construction trace. -/
def buildRotation (env : Env) : List Token × List Event :=
  let shared := getSharedTokens env
  if shared.length = 0 then
    match env.refreshResult with
    | none =>
      (personalPart env, [Event.personalRead, Event.sharedCacheRead, Event.refreshCall])
    | some newTokens =>
      if newTokens.length > 0 then
        (personalPart env ++ newTokens,
         [Event.personalRead, Event.sharedCacheRead, Event.refreshCall,
          Event.persistCache newTokens])
      else
        (personalPart env, [Event.personalRead, Event.sharedCacheRead, Event.refreshCall])
  else
    (personalPart env ++ shared, [Event.personalRead, Event.sharedCacheRead])

/-- Candidate construction (source lines 77-106).  `if (specificToken)`
is a JavaScript truthiness test, so an empty string falls through to the
rotation branch. -/
def buildTokensToTry (env : Env) (specificToken : Option String) :
    List Token × List Event :=
  match specificToken with
  | some t => if t = "" then buildRotation env else ([⟨t, "N/A"⟩], [])
  | none => buildRotation env

/-- `token.slice(-6)`: the last six characters, or the whole string when
it is shorter. -/
def lastSix (s : String) : String :=
  if s.length ≤ 6 then s else s.drop (s.length - 6)

/-- The per-attempt label (source line 118): `"Personal Token"` when the
`createdAt` sentinel matches, otherwise a shared index computed in
JavaScript number arithmetic from the loop index and whether a personal
token is currently configured. -/
def tokenIdentifier (env : Env) (i : Nat) (c : Token) : String :=
  if c.createdAt = "personal" then "Personal Token"
  else
    "Shared Token #" ++
      toString ((i : Int) - (if (getPersonalToken env).isSome then 1 else 0) + 1)

/-- The error message synthesized for a non-2xx response (source line
137): `data.error?.message || data.message || fallback`, where `||`
skips falsy values, in particular empty strings. -/
def httpErrorMessage (status : Nat) (body : JsonBody) : String :=
  match body.errMsg with
  | some s =>
    if s = "" then
      match body.topMsg with
      | some t => if t = "" then "API call failed (" ++ toString status ++ ")" else t
      | none => "API call failed (" ++ toString status ++ ")"
    else s
  | none =>
    match body.topMsg with
    | some t => if t = "" then "API call failed (" ++ toString status ++ ")" else t
    | none => "API call failed (" ++ toString status ++ ")"

/-- The result of one attempt body (source lines 124-139): a network or
parse failure is the thrown error; a response is a success exactly when
`response.ok` holds (status 200-299), otherwise the synthesized HTTP
error is thrown. -/
def attemptResult (o : AttemptOutcome) : Except String JsonBody :=
  match o with
  | AttemptOutcome.netError m => Except.error m
  | AttemptOutcome.parseError m => Except.error m
  | AttemptOutcome.response st body =>
    if 200 ≤ st ∧ st ≤ 299 then Except.ok body else Except.error (httpErrorMessage st body)

/-- Whether the `i`-th attempt of the call fails. -/
def attemptFails (env : Env) (i : Nat) : Bool :=
  match attemptResult (env.fetchOutcome i) with
  | Except.error _ => true
  | Except.ok _ => false

/-- The error message of the `i`-th attempt, when it fails. -/
def attemptErrMsg (env : Env) (i : Nat) : Option String :=
  match attemptResult (env.fetchOutcome i) with
  | Except.error m => some m
  | Except.ok _ => none

/-- The pre-attempt audit entry (source line 121). -/
def preEntry (env : Env) (ctx : String) (i : Nat) (c : Token) : LogEntry :=
  { model := ctx
    prompt := "Attempt with " ++ tokenIdentifier env i c
    output := "..." ++ lastSix c.token
    tokenCount := 0
    status := "Success"
    error := none }

/-- The per-failure audit entry (source line 148). -/
def failEntry (env : Env) (ctx : String) (i : Nat) (c : Token) (msg : String) : LogEntry :=
  { model := ctx
    prompt := tokenIdentifier env i c ++ " failed"
    output := msg
    tokenCount := 0
    status := "Error"
    error := some msg }

/-- The exhaustion audit entry (source line 161). -/
def exhaustEntry (ctx : String) (lastErr : String) : LogEntry :=
  { model := ctx
    prompt := "All available auth tokens failed."
    output := "Final error: " ++ lastErr
    tokenCount := 0
    status := "Error"
    error := some lastErr }

/-- The attempt loop (source lines 115-162), recursing over the
remaining candidates; `i` is the loop index of the head candidate and
`lastErr` the message of the most recent failure (the loop is entered
only with a non-empty list, so the initial value is never thrown).
The computation of `tokenIdentifier` reads the personal store only when
the sentinel test fails, which the trace mirrors. -/
def attemptLoop (env : Env) (ctx : String) :
    List Token → Nat → String → Except String (JsonBody × String) × List Event
  | [], _, lastErr =>
    (Except.error lastErr, [Event.audit (exhaustEntry ctx lastErr)])
  | c :: rest, i, _ =>
    let idEvents := if c.createdAt = "personal" then [] else [Event.personalRead]
    let head := idEvents ++ [Event.audit (preEntry env ctx i c), Event.fetchCall c.token]
    match attemptResult (env.fetchOutcome i) with
    | Except.ok body => (Except.ok (body, c.token), head)
    | Except.error msg =>
      let tailRun := attemptLoop env ctx rest (i + 1) msg
      (tailRun.1,
       head ++ [Event.audit (failEntry env ctx i c msg)] ++
         (if c.createdAt = "personal" then [Event.personalTokenFailed] else []) ++
         tailRun.2)

/-- `fetchWithTokenRotation` (source lines 69-163): build the candidate
list, fail with the configuration error when it is empty, otherwise run
the attempt loop.  Returns the promise outcome and the full event
trace. -/
def fetchWithTokenRotation (env : Env) (ctx : String)
    (specificToken : Option String) : Except String (JsonBody × String) × List Event :=
  let build := buildTokensToTry env specificToken
  if build.1.length = 0 then
    (Except.error ("Auth Token is required for " ++ ctx ++ ". Please set one in Settings."),
     build.2)
  else
    let run := attemptLoop env ctx build.1 0 ""
    (run.1, build.2 ++ run.2)

/-- Trace counting helpers. -/
def isFetch : Event → Bool
  | Event.fetchCall _ => true
  | _ => false

def fetchCount (tr : List Event) : Nat := tr.countP isFetch

def isAudit : Event → Bool
  | Event.audit _ => true
  | _ => false

def auditCount (tr : List Event) : Nat := tr.countP isAudit

def isErrorAudit : Event → Bool
  | Event.audit e => e.status == "Error"
  | _ => false

def errorAuditCount (tr : List Event) : Nat := tr.countP isErrorAudit

def isSuccessAudit : Event → Bool
  | Event.audit e => e.status == "Success"
  | _ => false

def successAuditCount (tr : List Event) : Nat := tr.countP isSuccessAudit

def isPersonalFailedEvent : Event → Bool
  | Event.personalTokenFailed => true
  | _ => false

def personalFailedCount (tr : List Event) : Nat := tr.countP isPersonalFailedEvent

def isRefreshCall : Event → Bool
  | Event.refreshCall => true
  | _ => false

def refreshCount (tr : List Event) : Nat := tr.countP isRefreshCall

def isPersist : Event → Bool
  | Event.persistCache _ => true
  | _ => false

def persistCount (tr : List Event) : Nat := tr.countP isPersist

def isSharedRead : Event → Bool
  | Event.sharedCacheRead => true
  | _ => false

def sharedReadCount (tr : List Event) : Nat := tr.countP isSharedRead

/-! Concrete collaborator states used to evaluate the helper on
specific inputs. -/

/-- Personal token configured, one cached shared token, every network
attempt rejects. -/
def envBoth : Env :=
  { personalAuthToken := some "p"
    sharedCache := some [⟨"s1", "2024"⟩]
    refreshResult := some []
    fetchOutcome := fun _ => AttemptOutcome.netError "x" }

/-- No personal token; the single cached shared token carries the
`createdAt` sentinel value `"personal"`; its attempt rejects. -/
def envSentinelShared : Env :=
  { personalAuthToken := none
    sharedCache := some [⟨"s1", "personal"⟩]
    refreshResult := some []
    fetchOutcome := fun _ => AttemptOutcome.netError "boom" }

/-- Personal token configured, empty cache, and the refresh resolves
with an empty list. -/
def envRefreshEmpty : Env :=
  { personalAuthToken := some "p"
    sharedCache := none
    refreshResult := some []
    fetchOutcome := fun _ => AttemptOutcome.netError "x" }

/-- No personal token, two cached shared tokens; the first attempt gets
an HTTP 500 whose body carries a nested error message, the second an
HTTP 200 (the concrete scenario of the specification). -/
def envScenario : Env :=
  { personalAuthToken := none
    sharedCache := some [⟨"s1tok", "a"⟩, ⟨"s2tok", "b"⟩]
    refreshResult := some []
    fetchOutcome := fun i =>
      if i = 0 then AttemptOutcome.response 500 ⟨some "quota exceeded", none, "errbody"⟩
      else AttemptOutcome.response 200 ⟨none, none, "okbody"⟩ }

/-- Personal token `"secret"` configured, one cached shared token,
every attempt rejects with `"e"`. -/
def envSecret : Env :=
  { personalAuthToken := some "secret"
    sharedCache := some [⟨"sh1", "t"⟩]
    refreshResult := some []
    fetchOutcome := fun _ => AttemptOutcome.netError "e" }

/-- Nothing configured anywhere: no personal token, no cache, and the
refresh rejects. -/
def envEmpty : Env :=
  { personalAuthToken := none
    sharedCache := none
    refreshResult := none
    fetchOutcome := fun _ => AttemptOutcome.netError "unreachable" }

/-- Empty cache; the refresh resolves with one shared token whose
attempt then succeeds. -/
def envRefreshOk : Env :=
  { personalAuthToken := none
    sharedCache := none
    refreshResult := some [⟨"r1", "t"⟩]
    fetchOutcome := fun _ => AttemptOutcome.response 200 ⟨none, none, "okbody"⟩ }

/-- A response body whose nested error-message field is present but
empty, while the top-level message field is `"top"`. -/
def bodyEmptyNested : JsonBody := ⟨some "", some "top", "payload"⟩

/-! Unfolding lemmas for the attempt loop. -/

theorem attemptLoop_nil (env : Env) (ctx : String) (i : Nat) (e : String) :
    attemptLoop env ctx [] i e = (Except.error e, [Event.audit (exhaustEntry ctx e)]) := rfl

theorem attemptLoop_cons_ok (env : Env) (ctx : String) (c : Token) (rest : List Token)
    (i : Nat) (e : String) (body : JsonBody)
    (h : attemptResult (env.fetchOutcome i) = Except.ok body) :
    attemptLoop env ctx (c :: rest) i e =
      (Except.ok (body, c.token),
       (if c.createdAt = "personal" then [] else [Event.personalRead]) ++
         [Event.audit (preEntry env ctx i c), Event.fetchCall c.token]) := by
  simp only [attemptLoop, h]

theorem attemptLoop_cons_err (env : Env) (ctx : String) (c : Token) (rest : List Token)
    (i : Nat) (e : String) (msg : String)
    (h : attemptResult (env.fetchOutcome i) = Except.error msg) :
    attemptLoop env ctx (c :: rest) i e =
      ((attemptLoop env ctx rest (i + 1) msg).1,
       ((if c.createdAt = "personal" then [] else [Event.personalRead]) ++
          [Event.audit (preEntry env ctx i c), Event.fetchCall c.token]) ++
         [Event.audit (failEntry env ctx i c msg)] ++
         (if c.createdAt = "personal" then [Event.personalTokenFailed] else []) ++
         (attemptLoop env ctx rest (i + 1) msg).2) := by
  simp only [attemptLoop, h]

/-- No candidate with the `"personal"` sentinel means the loop never
publishes a `personalTokenFailed` event, whatever the attempts do. -/
theorem attemptLoop_pf_zero (env : Env) (ctx : String) :
    ∀ (toks : List Token) (i : Nat) (e : String),
      (∀ c ∈ toks, c.createdAt ≠ "personal") →
      personalFailedCount (attemptLoop env ctx toks i e).2 = 0 := by
  intro toks
  induction toks with
  | nil =>
    intro i e _
    simp [attemptLoop_nil, personalFailedCount, isPersonalFailedEvent]
  | cons c rest ih =>
    intro i e h
    have hc : c.createdAt ≠ "personal" := h c (List.mem_cons_self c rest)
    have hrest : ∀ x ∈ rest, x.createdAt ≠ "personal" :=
      fun x hx => h x (List.mem_cons_of_mem c hx)
    cases hr : attemptResult (env.fetchOutcome i) with
    | ok body =>
      rw [attemptLoop_cons_ok env ctx c rest i e body hr]
      simp [personalFailedCount, isPersonalFailedEvent, hc]
    | error msg =>
      rw [attemptLoop_cons_err env ctx c rest i e msg hr]
      have := ih (i + 1) msg hrest
      simp [personalFailedCount, isPersonalFailedEvent, hc, List.countP_append] at this ⊢
      exact this

/-- The loop issues no refresh, no cache persist and no cache read. -/
theorem attemptLoop_no_build_events (env : Env) (ctx : String) :
    ∀ (toks : List Token) (i : Nat) (e : String),
      refreshCount (attemptLoop env ctx toks i e).2 = 0 ∧
      persistCount (attemptLoop env ctx toks i e).2 = 0 ∧
      sharedReadCount (attemptLoop env ctx toks i e).2 = 0 := by
  intro toks
  induction toks with
  | nil =>
    intro i e
    simp [attemptLoop_nil, refreshCount, persistCount, sharedReadCount,
      isRefreshCall, isPersist, isSharedRead]
  | cons c rest ih =>
    intro i e
    cases hr : attemptResult (env.fetchOutcome i) with
    | ok body =>
      rw [attemptLoop_cons_ok env ctx c rest i e body hr]
      by_cases hc : c.createdAt = "personal" <;>
        simp [refreshCount, persistCount, sharedReadCount,
          isRefreshCall, isPersist, isSharedRead, hc]
    | error msg =>
      rw [attemptLoop_cons_err env ctx c rest i e msg hr]
      have := ih (i + 1) msg
      by_cases hc : c.createdAt = "personal" <;>
        simp [refreshCount, persistCount, sharedReadCount,
          isRefreshCall, isPersist, isSharedRead, hc, List.countP_append] at this ⊢ <;>
        exact this

/-- When the first `k` attempts fail and attempt `k` succeeds, the loop
resolves with attempt `k`s body and the `k`-th candidate token, makes
exactly `k + 1` network calls, and logs `k` error entries, `k + 1`
entries with status `"Success"` (the pre-attempt entries) and `2k + 1`
entries in total. -/
theorem attemptLoop_success (env : Env) (ctx : String) :
    ∀ (toks : List Token) (i : Nat) (e : String) (k : Nat) (hk : k < toks.length)
      (body : JsonBody),
      (∀ j, j < k → attemptFails env (i + j) = true) →
      attemptResult (env.fetchOutcome (i + k)) = Except.ok body →
      (attemptLoop env ctx toks i e).1 = Except.ok (body, (toks.get ⟨k, hk⟩).token) ∧
      fetchCount (attemptLoop env ctx toks i e).2 = k + 1 ∧
      errorAuditCount (attemptLoop env ctx toks i e).2 = k ∧
      successAuditCount (attemptLoop env ctx toks i e).2 = k + 1 ∧
      auditCount (attemptLoop env ctx toks i e).2 = 2 * k + 1 := by
  intro toks
  induction toks with
  | nil =>
    intro i e k hk
    exact absurd hk (by simp)
  | cons c rest ih =>
    intro i e k hk body hfail hok
    cases k with
    | zero =>
      rw [Nat.add_zero] at hok
      rw [attemptLoop_cons_ok env ctx c rest i e body hok]
      by_cases hc : c.createdAt = "personal" <;>
        simp [fetchCount, errorAuditCount, successAuditCount, auditCount,
          isFetch, isErrorAudit, isSuccessAudit, isAudit, preEntry, hc]
    | succ m =>
      have h0 : attemptFails env (i + 0) = true := hfail 0 (Nat.succ_pos m)
      rw [Nat.add_zero] at h0
      cases he : attemptResult (env.fetchOutcome i) with
      | ok b => rw [attemptFails, he] at h0; exact absurd h0 (by simp)
      | error msg =>
        rw [attemptLoop_cons_err env ctx c rest i e msg he]
        have hk' : m < rest.length := by simpa using Nat.lt_of_succ_lt_succ hk
        have hfail' : ∀ j, j < m → attemptFails env (i + 1 + j) = true := by
          intro j hj
          have := hfail (j + 1) (Nat.succ_lt_succ hj)
          rwa [show i + (j + 1) = i + 1 + j by omega] at this
        have hok' : attemptResult (env.fetchOutcome (i + 1 + m)) = Except.ok body := by
          rwa [show i + 1 + m = i + (m + 1) by omega]
        have htail := ih (i + 1) msg m hk' body hfail' hok'
        obtain ⟨hres, hfc, hec, hsc, hac⟩ := htail
        refine ⟨by simpa using hres, ?_, ?_, ?_, ?_⟩ <;>
          by_cases hc : c.createdAt = "personal" <;>
            simp [fetchCount, errorAuditCount, successAuditCount, auditCount,
              isFetch, isErrorAudit, isSuccessAudit, isAudit, preEntry, failEntry,
              isPersonalFailedEvent, hc, List.countP_append]
              at hfc hec hsc hac ⊢ <;> omega

/-- When every attempt fails, the loop rejects with the message of the
last attempt, makes one network call per candidate, logs exactly one
error entry per candidate plus the exhaustion entry, and the exhaustion
entry is the last event of its trace. -/
theorem attemptLoop_allfail (env : Env) (ctx : String) :
    ∀ (toks : List Token) (i : Nat) (e : String),
      toks ≠ [] →
      (∀ j, j < toks.length → attemptFails env (i + j) = true) →
      ∃ m pre,
        attemptErrMsg env (i + toks.length - 1) = some m ∧
        (attemptLoop env ctx toks i e).1 = Except.error m ∧
        errorAuditCount (attemptLoop env ctx toks i e).2 = toks.length + 1 ∧
        fetchCount (attemptLoop env ctx toks i e).2 = toks.length ∧
        (attemptLoop env ctx toks i e).2 = pre ++ [Event.audit (exhaustEntry ctx m)] := by
  intro toks
  induction toks with
  | nil => intro i e hne; exact absurd rfl hne
  | cons c rest ih =>
    intro i e _ hfail
    have h0 : attemptFails env (i + 0) = true := hfail 0 (by simp)
    rw [Nat.add_zero] at h0
    cases he : attemptResult (env.fetchOutcome i) with
    | ok b => rw [attemptFails, he] at h0; exact absurd h0 (by simp)
    | error msg =>
      rw [attemptLoop_cons_err env ctx c rest i e msg he]
      cases rest with
      | nil =>
        refine ⟨msg,
          ((if c.createdAt = "personal" then [] else [Event.personalRead]) ++
            [Event.audit (preEntry env ctx i c), Event.fetchCall c.token]) ++
            [Event.audit (failEntry env ctx i c msg)] ++
            (if c.createdAt = "personal" then [Event.personalTokenFailed] else []),
          ?_, ?_, ?_, ?_, ?_⟩
        · simp [attemptErrMsg, he]
        · simp [attemptLoop_nil]
        · by_cases hc : c.createdAt = "personal" <;>
            simp [attemptLoop_nil, errorAuditCount, isErrorAudit, preEntry, failEntry,
              exhaustEntry, hc, List.countP_append]
        · by_cases hc : c.createdAt = "personal" <;>
            simp [attemptLoop_nil, fetchCount, isFetch, hc, List.countP_append]
        · by_cases hc : c.createdAt = "personal" <;>
            simp [attemptLoop_nil, hc]
      | cons d rest2 =>
        have hfail' : ∀ j, j < (d :: rest2).length → attemptFails env (i + 1 + j) = true := by
          intro j hj
          have := hfail (j + 1) (by simpa using Nat.succ_lt_succ hj)
          rwa [show i + (j + 1) = i + 1 + j by omega] at this
        obtain ⟨m, pre, hmsg, hres, hec, hfc, htr⟩ :=
          ih (i + 1) msg (by simp) hfail'
        refine ⟨m, ((if c.createdAt = "personal" then [] else [Event.personalRead]) ++
            [Event.audit (preEntry env ctx i c), Event.fetchCall c.token]) ++
            [Event.audit (failEntry env ctx i c msg)] ++
            (if c.createdAt = "personal" then [Event.personalTokenFailed] else []) ++ pre,
          ?_, ?_, ?_, ?_, ?_⟩
        · have harith : i + (c :: d :: rest2).length - 1 = i + 1 + (d :: rest2).length - 1 := by
            simp [List.length_cons]
            omega
          rw [harith]
          exact hmsg
        · exact hres
        · rw [htr] at hec ⊢
          by_cases hc : c.createdAt = "personal" <;>
            simp [errorAuditCount, isErrorAudit, preEntry, failEntry, hc,
              List.countP_append] at hec ⊢ <;> omega
        · rw [htr] at hfc ⊢
          by_cases hc : c.createdAt = "personal" <;>
            simp [fetchCount, isFetch, hc, List.countP_append] at hfc ⊢ <;> omega
        · rw [htr]
          simp

/-- Whenever attempt `k` is reached (the first `k` attempts all
failed), its pre-attempt audit entry occurs in the loop trace,
whatever attempt `k` itself does. -/
theorem attemptLoop_pre_mem (env : Env) (ctx : String) :
    ∀ (toks : List Token) (i : Nat) (e : String) (k : Nat) (hk : k < toks.length),
      (∀ j, j < k → attemptFails env (i + j) = true) →
      Event.audit (preEntry env ctx (i + k) (toks.get ⟨k, hk⟩)) ∈
        (attemptLoop env ctx toks i e).2 := by
  intro toks
  induction toks with
  | nil =>
    intro i e k hk
    exact absurd hk (by simp)
  | cons c rest ih =>
    intro i e k hk hfail
    cases k with
    | zero =>
      cases he : attemptResult (env.fetchOutcome i) with
      | ok body =>
        rw [attemptLoop_cons_ok env ctx c rest i e body he]
        simp
      | error msg =>
        rw [attemptLoop_cons_err env ctx c rest i e msg he]
        simp
    | succ m =>
      have h0 : attemptFails env (i + 0) = true := hfail 0 (Nat.succ_pos m)
      rw [Nat.add_zero] at h0
      cases he : attemptResult (env.fetchOutcome i) with
      | ok b => rw [attemptFails, he] at h0; exact absurd h0 (by simp)
      | error msg =>
        rw [attemptLoop_cons_err env ctx c rest i e msg he]
        have hk' : m < rest.length := by simpa using Nat.lt_of_succ_lt_succ hk
        have hfail' : ∀ j, j < m → attemptFails env (i + 1 + j) = true := by
          intro j hj
          have := hfail (j + 1) (Nat.succ_lt_succ hj)
          rwa [show i + (j + 1) = i + 1 + j by omega] at this
        have hmem := ih (i + 1) msg m hk' hfail'
        rw [show i + 1 + m = i + (m + 1) by omega] at hmem
        exact List.mem_append_right _ hmem

/-- The candidate list of the rotation branch is the personal part
followed by the shared tokens actually used. -/
theorem buildRotation_fst (env : Env) :
    (buildRotation env).1 = personalPart env ++ sharedUsed env := by
  unfold buildRotation sharedUsed
  by_cases hs : (getSharedTokens env).length = 0
  · simp only [hs, if_pos rfl]
    cases env.refreshResult with
    | none => simp
    | some newTokens =>
      by_cases hn : newTokens.length > 0 <;> simp [hn]
  · simp [hs]

/-- The construction trace contains no network call, no audit entry and
no notification event. -/
theorem buildRotation_no_loop_events (env : Env) :
    fetchCount (buildRotation env).2 = 0 ∧
    auditCount (buildRotation env).2 = 0 ∧
    errorAuditCount (buildRotation env).2 = 0 ∧
    successAuditCount (buildRotation env).2 = 0 ∧
    personalFailedCount (buildRotation env).2 = 0 := by
  unfold buildRotation
  by_cases hs : (getSharedTokens env).length = 0
  · simp only [hs, if_pos rfl]
    cases env.refreshResult with
    | none =>
      simp [fetchCount, auditCount, errorAuditCount, successAuditCount,
        personalFailedCount, isFetch, isAudit, isErrorAudit, isSuccessAudit,
        isPersonalFailedEvent]
    | some newTokens =>
      by_cases hn : newTokens.length > 0 <;>
        simp [hn, fetchCount, auditCount, errorAuditCount, successAuditCount,
          personalFailedCount, isFetch, isAudit, isErrorAudit, isSuccessAudit,
          isPersonalFailedEvent]
  · simp [hs, fetchCount, auditCount, errorAuditCount, successAuditCount,
      personalFailedCount, isFetch, isAudit, isErrorAudit, isSuccessAudit,
      isPersonalFailedEvent]

/-- A call whose candidate list is non-empty is the construction trace
followed by the loop. -/
theorem fetchWithTokenRotation_run (env : Env) (ctx : String) (spec : Option String)
    (h : (buildTokensToTry env spec).1.length ≠ 0) :
    fetchWithTokenRotation env ctx spec =
      ((attemptLoop env ctx (buildTokensToTry env spec).1 0 "").1,
       (buildTokensToTry env spec).2 ++
         (attemptLoop env ctx (buildTokensToTry env spec).1 0 "").2) := by
  unfold fetchWithTokenRotation
  simp only [if_neg h]

/-- Candidate construction never issues a network call, audit entry or
notification, whichever branch is taken. -/
theorem buildTokensToTry_no_loop_events (env : Env) (spec : Option String) :
    fetchCount (buildTokensToTry env spec).2 = 0 ∧
    auditCount (buildTokensToTry env spec).2 = 0 ∧
    errorAuditCount (buildTokensToTry env spec).2 = 0 ∧
    successAuditCount (buildTokensToTry env spec).2 = 0 ∧
    personalFailedCount (buildTokensToTry env spec).2 = 0 := by
  unfold buildTokensToTry
  cases spec with
  | none => exact buildRotation_no_loop_events env
  | some t =>
    by_cases ht : t = ""
    · simpa [ht] using buildRotation_no_loop_events env
    · simp [ht, fetchCount, auditCount, errorAuditCount, successAuditCount,
        personalFailedCount]

/-- C1: for every non-empty candidate set, when the first `i` attempts
fail and the `i`-th candidate succeeds (the response parses as JSON with
a 2xx status), `execute` resolves with that parsed body and that
candidate token, and exactly `i + 1` network calls are made, so no
candidate after position `i` is attempted. -/
theorem execute_success_returns_immediately (env : Env) (ctx : String)
    (spec : Option String) (i : Nat) (body : JsonBody)
    (hk : i < (buildTokensToTry env spec).1.length)
    (hfail : ∀ j, j < i → attemptFails env j = true)
    (hok : attemptResult (env.fetchOutcome i) = Except.ok body) :
    (fetchWithTokenRotation env ctx spec).1 =
      Except.ok (body, ((buildTokensToTry env spec).1.get ⟨i, hk⟩).token) ∧
    fetchCount (fetchWithTokenRotation env ctx spec).2 = i + 1 := by
  have hne : (buildTokensToTry env spec).1.length ≠ 0 := by omega
  rw [fetchWithTokenRotation_run env ctx spec hne]
  have hfail0 : ∀ j, j < i → attemptFails env (0 + j) = true := by
    intro j hj; simpa using hfail j hj
  have hok0 : attemptResult (env.fetchOutcome (0 + i)) = Except.ok body := by
    simpa using hok
  obtain ⟨hres, hfc, _, _, _⟩ :=
    attemptLoop_success env ctx (buildTokensToTry env spec).1 0 "" i hk body hfail0 hok0
  refine ⟨hres, ?_⟩
  have hb := (buildTokensToTry_no_loop_events env spec).1
  simp only [fetchCount, List.countP_append] at *
  omega

/-- C1 witness: in the concrete scenario the first shared token fails
with HTTP 500, the second succeeds, the call resolves with the second
token and exactly two network calls happen. -/
theorem execute_success_returns_immediately_witness :
    (fetchWithTokenRotation envScenario "VEO T2V" none).1 =
      Except.ok (⟨none, none, "okbody"⟩, "s2tok") ∧
    fetchCount (fetchWithTokenRotation envScenario "VEO T2V" none).2 = 2 := by
  obtain ⟨h1, h2⟩ :=
    execute_success_returns_immediately envScenario "VEO T2V" none 1
      ⟨none, none, "okbody"⟩ (by decide) (by decide) rfl
  exact ⟨by rw [h1]; rfl, h2⟩

/-- C2: when every candidate of a non-empty candidate set fails, the
call rejects with exactly the error message of the last attempted
candidate, the audit sink receives exactly one error-status entry per
failed candidate plus one exhaustion entry (candidate count plus one in
total), and the exhaustion entry is the last emitted event. -/
theorem execute_all_fail_rejects_with_last_error (env : Env) (ctx : String)
    (spec : Option String)
    (hne : (buildTokensToTry env spec).1.length ≠ 0)
    (hfail : ∀ j, j < (buildTokensToTry env spec).1.length → attemptFails env j = true) :
    ∃ m, attemptErrMsg env ((buildTokensToTry env spec).1.length - 1) = some m ∧
      (fetchWithTokenRotation env ctx spec).1 = Except.error m ∧
      errorAuditCount (fetchWithTokenRotation env ctx spec).2 =
        (buildTokensToTry env spec).1.length + 1 ∧
      (fetchWithTokenRotation env ctx spec).2.getLast? =
        some (Event.audit (exhaustEntry ctx m)) := by
  rw [fetchWithTokenRotation_run env ctx spec hne]
  have hnil : (buildTokensToTry env spec).1 ≠ [] := by
    intro h; exact hne (by simp [h])
  have hfail0 : ∀ j, j < (buildTokensToTry env spec).1.length →
      attemptFails env (0 + j) = true := by
    intro j hj; simpa using hfail j hj
  obtain ⟨m, pre, hmsg, hres, hec, hfc, htr⟩ :=
    attemptLoop_allfail env ctx (buildTokensToTry env spec).1 0 "" hnil hfail0
  refine ⟨m, by simpa using hmsg, hres, ?_, ?_⟩
  · have hb := (buildTokensToTry_no_loop_events env spec).2.2.1
    simp only [errorAuditCount, List.countP_append] at *
    omega
  · rw [htr, ← List.append_assoc]
    exact List.getLast?_concat _

/-- C2 witness: with a personal token and one shared token both failing
with `"e"`, the call rejects with `"e"`, logs three error entries (two
failures plus exhaustion) and ends with the exhaustion entry. -/
theorem execute_all_fail_rejects_with_last_error_witness :
    (fetchWithTokenRotation envSecret "CTX" none).1 = Except.error "e" ∧
    errorAuditCount (fetchWithTokenRotation envSecret "CTX" none).2 = 3 ∧
    (fetchWithTokenRotation envSecret "CTX" none).2.getLast? =
      some (Event.audit (exhaustEntry "CTX" "e")) := by
  obtain ⟨m, hmsg, hres, hec, hlast⟩ :=
    execute_all_fail_rejects_with_last_error envSecret "CTX" none
      (by decide) (by decide)
  have hm : m = "e" := by
    have h2 : attemptErrMsg envSecret
        ((buildTokensToTry envSecret none).1.length - 1) = some "e" := rfl
    injection h2.symm.trans hmsg with h3
    exact h3.symm
  subst hm
  exact ⟨hres, hec, hlast⟩

/-- C3: with no explicit credential, no configured personal token and a
shared set that stays empty after the cache read and the re-fetch, the
call fails at once with the configuration error naming the context, and
no network call is ever issued. -/
theorem execute_no_credentials_fails_without_network (env : Env) (ctx : String)
    (hp : getPersonalToken env = none)
    (hs : getSharedTokens env = [])
    (hr : env.refreshResult = none ∨ env.refreshResult = some []) :
    (fetchWithTokenRotation env ctx none).1 =
      Except.error ("Auth Token is required for " ++ ctx ++
        ". Please set one in Settings.") ∧
    fetchCount (fetchWithTokenRotation env ctx none).2 = 0 := by
  have hpp : personalPart env = [] := by unfold personalPart; rw [hp]
  have hfst : (buildTokensToTry env none).1 = [] := by
    simp only [buildTokensToTry, buildRotation, hs, hpp]
    rcases hr with h | h <;> simp [h]
  refine ⟨?_, ?_⟩
  · simp only [fetchWithTokenRotation, hfst]
    simp
  · simp only [fetchWithTokenRotation, hfst]
    simpa using (buildTokensToTry_no_loop_events env none).1

/-- C3 witness: nothing configured and a rejecting refresh means the
concrete call rejects with the configuration message and makes zero
network calls. -/
theorem execute_no_credentials_fails_without_network_witness :
    (fetchWithTokenRotation envEmpty "IMG GEN" none).1 =
      Except.error "Auth Token is required for IMG GEN. Please set one in Settings." ∧
    fetchCount (fetchWithTokenRotation envEmpty "IMG GEN" none).2 = 0 := by
  obtain ⟨h1, h2⟩ :=
    execute_no_credentials_fails_without_network envEmpty "IMG GEN" rfl rfl (Or.inl rfl)
  exact ⟨by rw [h1]; rfl, h2⟩

/-- C4 counterexample: the claim fails for a supplied explicit
credential equal to the empty string.  `if (specificToken)` is falsy on
`""`, so construction falls through to the rotation branch: with both
stores populated the candidate set is the personal and shared tokens
(not the explicit singleton) and both stores are read during
construction. -/
theorem explicit_empty_string_not_singleton :
    buildTokensToTry envBoth (some "") =
      ([⟨"p", "personal"⟩, ⟨"s1", "2024"⟩],
       [Event.personalRead, Event.sharedCacheRead]) ∧
    buildTokensToTry envBoth (some "") ≠ ([⟨"", "N/A"⟩], []) := by
  constructor
  · rfl
  · decide

/-- C4 amended: for a supplied non-empty explicit credential the
candidate set is exactly the singleton explicit candidate, construction
emits no event at all (neither store nor the refresh operation is
consulted), and the whole call performs no refresh, no cache persist
and no cache read. -/
theorem explicit_credential_singleton_bypasses_stores (env : Env) (ctx : String)
    (t : String) (h : t ≠ "") :
    buildTokensToTry env (some t) = ([⟨t, "N/A"⟩], []) ∧
    refreshCount (fetchWithTokenRotation env ctx (some t)).2 = 0 ∧
    persistCount (fetchWithTokenRotation env ctx (some t)).2 = 0 ∧
    sharedReadCount (fetchWithTokenRotation env ctx (some t)).2 = 0 := by
  have hb : buildTokensToTry env (some t) = ([⟨t, "N/A"⟩], []) := by
    simp [buildTokensToTry, h]
  have hb2 : (buildTokensToTry env (some t)).2 = [] := by rw [hb]
  have hlen : (buildTokensToTry env (some t)).1.length ≠ 0 := by rw [hb]; simp
  rw [fetchWithTokenRotation_run env ctx (some t) hlen]
  obtain ⟨h1, h2, h3⟩ :=
    attemptLoop_no_build_events env ctx (buildTokensToTry env (some t)).1 0 ""
  refine ⟨hb, ?_, ?_, ?_⟩
  · simp only [refreshCount, List.countP_append] at h1 ⊢
    rw [hb2]
    simpa using h1
  · simp only [persistCount, List.countP_append] at h2 ⊢
    rw [hb2]
    simpa using h2
  · simp only [sharedReadCount, List.countP_append] at h3 ⊢
    rw [hb2]
    simpa using h3

/-- C4 amended witness: with both stores populated, a non-empty
explicit credential yields the singleton candidate set and no
store/refresh activity. -/
theorem explicit_credential_singleton_bypasses_stores_witness :
    buildTokensToTry envBoth (some "xk") = ([⟨"xk", "N/A"⟩], []) ∧
    refreshCount (fetchWithTokenRotation envBoth "CTX" (some "xk")).2 = 0 ∧
    persistCount (fetchWithTokenRotation envBoth "CTX" (some "xk")).2 = 0 ∧
    sharedReadCount (fetchWithTokenRotation envBoth "CTX" (some "xk")).2 = 0 :=
  explicit_credential_singleton_bypasses_stores envBoth "CTX" "xk" (by decide)

/-- C10: for any supplied non-empty explicit credential the single
candidate carries `createdAt = "N/A"`, so a failing attempt can never
publish a `personalTokenFailed` event — the sentinel test, not the
token value, decides personal origin.  This holds for every
collaborator state, in particular when the explicit token string equals
the configured personal token. -/
theorem explicit_failure_never_notifies_personal (env : Env) (ctx : String)
    (t : String) (h : t ≠ "") :
    (buildTokensToTry env (some t)).1 = [⟨t, "N/A"⟩] ∧
    personalFailedCount (fetchWithTokenRotation env ctx (some t)).2 = 0 := by
  have hb : buildTokensToTry env (some t) = ([⟨t, "N/A"⟩], []) := by
    simp [buildTokensToTry, h]
  have hb1 : (buildTokensToTry env (some t)).1 = [⟨t, "N/A"⟩] := by rw [hb]
  have hb2 : (buildTokensToTry env (some t)).2 = [] := by rw [hb]
  have hlen : (buildTokensToTry env (some t)).1.length ≠ 0 := by rw [hb]; simp
  rw [fetchWithTokenRotation_run env ctx (some t) hlen]
  refine ⟨hb1, ?_⟩
  have hpf := attemptLoop_pf_zero env ctx (buildTokensToTry env (some t)).1 0 ""
    (by intro c hc; rw [hb1] at hc; simp at hc; subst hc; simp)
  simp only [personalFailedCount, List.countP_append] at hpf ⊢
  rw [hb2]
  simpa using hpf

/-- C10 witness: the explicit token equals the configured personal
token `"secret"`, the attempt fails, and still no `personalTokenFailed`
event is published. -/
theorem explicit_failure_never_notifies_personal_witness :
    (buildTokensToTry envSecret (some "secret")).1 = [⟨"secret", "N/A"⟩] ∧
    personalFailedCount (fetchWithTokenRotation envSecret "CTX" (some "secret")).2 = 0 :=
  explicit_failure_never_notifies_personal envSecret "CTX" "secret" (by decide)

/-- C5 counterexample: no personal credential is configured, the only
candidate is a shared token, yet its failure publishes a
`personalTokenFailed` event, because the cached shared token happens to
carry the `createdAt` sentinel value `"personal"` and the code keys the
notification on that sentinel alone.  The claim asserts no event is
published when only shared candidates fail. -/
theorem shared_sentinel_fires_personal_notification :
    getPersonalToken envSentinelShared = none ∧
    getSharedTokens envSentinelShared = [⟨"s1", "personal"⟩] ∧
    personalFailedCount (fetchWithTokenRotation envSentinelShared "CTX" none).2 = 1 := by
  refine ⟨rfl, rfl, rfl⟩

/-- C5 amended: `personalTokenFailed` is keyed on the `createdAt`
sentinel.  Provided no shared candidate carries the sentinel, the
original claim holds: when a personal credential is configured (it is
then the unique sentinel-bearing candidate, tried first) exactly one
event is published when its attempt fails — whatever later candidates
do — and none when its attempt succeeds; with no personal credential
configured, no event is ever published. -/
theorem personal_failure_notifies_exactly_once (env : Env) (ctx : String)
    (hsh : ∀ c ∈ sharedUsed env, c.createdAt ≠ "personal") :
    (∀ p, getPersonalToken env = some p →
      (attemptFails env 0 = true →
        personalFailedCount (fetchWithTokenRotation env ctx none).2 = 1) ∧
      (attemptFails env 0 = false →
        personalFailedCount (fetchWithTokenRotation env ctx none).2 = 0)) ∧
    (getPersonalToken env = none →
      personalFailedCount (fetchWithTokenRotation env ctx none).2 = 0) := by
  have hfst : (buildTokensToTry env none).1 = personalPart env ++ sharedUsed env :=
    buildRotation_fst env
  have hbpf := (buildTokensToTry_no_loop_events env none).2.2.2.2
  constructor
  · intro p hp
    have hpc : p.createdAt = "personal" := by
      cases he : env.personalAuthToken with
      | none => simp [getPersonalToken, he] at hp
      | some s =>
        by_cases hs : s = ""
        · simp [getPersonalToken, he, hs] at hp
        · simp [getPersonalToken, he, hs] at hp
          rw [← hp]
    have hpp : personalPart env = [p] := by unfold personalPart; rw [hp]
    have hlist : (buildTokensToTry env none).1 = p :: sharedUsed env := by
      rw [hfst, hpp]; rfl
    have hlen : (buildTokensToTry env none).1.length ≠ 0 := by rw [hlist]; simp
    rw [fetchWithTokenRotation_run env ctx none hlen]
    constructor
    · intro hf
      cases he0 : attemptResult (env.fetchOutcome 0) with
      | ok b => rw [attemptFails, he0] at hf; simp at hf
      | error msg =>
        rw [hlist, attemptLoop_cons_err env ctx p (sharedUsed env) 0 "" msg he0]
        have hpf := attemptLoop_pf_zero env ctx (sharedUsed env) 1 msg hsh
        simp only [personalFailedCount, List.countP_append] at hbpf hpf ⊢
        simp [isPersonalFailedEvent, hpc, -List.countP_eq_zero, -List.countP_pos_iff]
        omega
    · intro hf
      cases he0 : attemptResult (env.fetchOutcome 0) with
      | error msg => rw [attemptFails, he0] at hf; simp at hf
      | ok b =>
        rw [hlist, attemptLoop_cons_ok env ctx p (sharedUsed env) 0 "" b he0]
        simp only [personalFailedCount, List.countP_append] at hbpf ⊢
        simp [isPersonalFailedEvent, hpc, -List.countP_eq_zero, -List.countP_pos_iff]
        omega
  · intro hp
    have hpp : personalPart env = [] := by unfold personalPart; rw [hp]
    have hlist : (buildTokensToTry env none).1 = sharedUsed env := by
      rw [hfst, hpp]; rfl
    by_cases hsu : sharedUsed env = []
    · have hlen : (buildTokensToTry env none).1.length = 0 := by rw [hlist, hsu]; rfl
      unfold fetchWithTokenRotation
      rw [if_pos hlen]
      simpa using hbpf
    · have hlen : (buildTokensToTry env none).1.length ≠ 0 := by
        rw [hlist]
        intro hc
        exact hsu (List.length_eq_zero.mp hc)
      rw [fetchWithTokenRotation_run env ctx none hlen, hlist]
      have hpf := attemptLoop_pf_zero env ctx (sharedUsed env) 0 "" hsh
      simp only [personalFailedCount, List.countP_append] at hbpf hpf ⊢
      omega

/-- C5 amended witness: personal token `"secret"` fails (network error)
with one non-sentinel shared fallback; exactly one `personalTokenFailed`
event is published. -/
theorem personal_failure_notifies_exactly_once_witness :
    personalFailedCount (fetchWithTokenRotation envSecret "CTX" none).2 = 1 := by
  have h := personal_failure_notifies_exactly_once envSecret "CTX" (by decide)
  exact (h.1 ⟨"secret", "personal"⟩ rfl).1 rfl

/-- The refresh and persist events of a call all come from candidate
construction; the attempt loop contributes none. -/
theorem fetch_trace_refresh_persist (env : Env) (ctx : String) (spec : Option String) :
    refreshCount (fetchWithTokenRotation env ctx spec).2 =
      refreshCount (buildTokensToTry env spec).2 ∧
    persistCount (fetchWithTokenRotation env ctx spec).2 =
      persistCount (buildTokensToTry env spec).2 := by
  by_cases h : (buildTokensToTry env spec).1.length = 0
  · unfold fetchWithTokenRotation
    rw [if_pos h]
    exact ⟨rfl, rfl⟩
  · rw [fetchWithTokenRotation_run env ctx spec h]
    obtain ⟨h1, h2, _⟩ :=
      attemptLoop_no_build_events env ctx (buildTokensToTry env spec).1 0 ""
    constructor <;>
      simp only [refreshCount, persistCount, List.countP_append] at h1 h2 ⊢ <;> omega

/-- C6 counterexample: with an empty cache the refresh is attempted and
resolves successfully with the empty list, but nothing is persisted
back into the session cache — the code persists only a non-empty
refresh result, while the claim demands persistence whenever the
refresh succeeds. -/
theorem empty_refresh_success_not_persisted :
    envRefreshEmpty.refreshResult = some [] ∧
    refreshCount (fetchWithTokenRotation envRefreshEmpty "CTX" none).2 = 1 ∧
    persistCount (fetchWithTokenRotation envRefreshEmpty "CTX" none).2 = 0 := by
  refine ⟨rfl, rfl, rfl⟩

/-- C6 amended: when the cached shared set is empty the refresh is
attempted exactly once per call; if it resolves with a non-empty list,
that list is persisted into the cache and used as the shared
candidates; if it rejects or resolves with an empty list, the outcome
is swallowed, nothing is persisted and the call proceeds with an empty
shared set (the candidates are just the personal part). -/
theorem empty_cache_refreshes_exactly_once (env : Env) (ctx : String)
    (hs : getSharedTokens env = []) :
    refreshCount (fetchWithTokenRotation env ctx none).2 = 1 ∧
    (∀ l, env.refreshResult = some l → l.length ≠ 0 →
      (buildTokensToTry env none).1 = personalPart env ++ l ∧
      Event.persistCache l ∈ (fetchWithTokenRotation env ctx none).2) ∧
    ((env.refreshResult = none ∨ env.refreshResult = some []) →
      persistCount (fetchWithTokenRotation env ctx none).2 = 0 ∧
      (buildTokensToTry env none).1 = personalPart env) := by
  obtain ⟨hrf, hpf⟩ := fetch_trace_refresh_persist env ctx none
  cases henv : env.refreshResult with
  | none =>
    have hbuild : buildTokensToTry env none =
        (personalPart env,
         [Event.personalRead, Event.sharedCacheRead, Event.refreshCall]) := by
      show buildRotation env = _
      simp [buildRotation, hs, henv]
    refine ⟨?_, ?_, ?_⟩
    · rw [hrf, hbuild]; rfl
    · intro l hl
      exact absurd hl (by simp)
    · intro _
      exact ⟨by rw [hpf, hbuild]; rfl, by rw [hbuild]⟩
  | some l0 =>
    by_cases hl0 : l0.length > 0
    · have hbuild : buildTokensToTry env none =
          (personalPart env ++ l0,
           [Event.personalRead, Event.sharedCacheRead, Event.refreshCall,
            Event.persistCache l0]) := by
        show buildRotation env = _
        simp [buildRotation, hs, henv, hl0]
      refine ⟨?_, ?_, ?_⟩
      · rw [hrf, hbuild]; rfl
      · intro l hl _
        injection hl with hl2
        subst hl2
        refine ⟨by rw [hbuild], ?_⟩
        have hlen : (buildTokensToTry env none).1.length ≠ 0 := by
          rw [hbuild]
          simp only [List.length_append]
          omega
        rw [fetchWithTokenRotation_run env ctx none hlen]
        apply List.mem_append_left
        rw [hbuild]
        simp
      · intro hor
        rcases hor with h | h
        · exact absurd h (by simp)
        · injection h with h2
          subst h2
          simp at hl0
    · have hbuild : buildTokensToTry env none =
          (personalPart env,
           [Event.personalRead, Event.sharedCacheRead, Event.refreshCall]) := by
        show buildRotation env = _
        simp [buildRotation, hs, henv, hl0]
      refine ⟨?_, ?_, ?_⟩
      · rw [hrf, hbuild]; rfl
      · intro l hl hlen
        injection hl with hl2
        subst hl2
        omega
      · intro _
        exact ⟨by rw [hpf, hbuild]; rfl, by rw [hbuild]⟩

/-- C6 amended witness: with an empty cache and a refresh resolving
with one token, the call refreshes once, uses the token as the shared
candidates and persists it. -/
theorem empty_cache_refreshes_exactly_once_witness :
    refreshCount (fetchWithTokenRotation envRefreshOk "CTX" none).2 = 1 ∧
    (buildTokensToTry envRefreshOk none).1 =
      personalPart envRefreshOk ++ [⟨"r1", "t"⟩] ∧
    Event.persistCache [⟨"r1", "t"⟩] ∈
      (fetchWithTokenRotation envRefreshOk "CTX" none).2 := by
  have h := empty_cache_refreshes_exactly_once envRefreshOk "CTX" rfl
  exact ⟨h.1, h.2.1 [⟨"r1", "t"⟩] rfl (by decide)⟩

/-- C7 counterexample: for an HTTP 500 whose body has a *present but
empty* nested error-message field and top-level message `"top"`, the
code produces `"top"`, not the present nested field: `||` skips falsy
values, so an empty string is passed over, while the claim keys the
priority on mere presence. -/
theorem empty_nested_error_message_skipped :
    bodyEmptyNested.errMsg = some "" ∧
    attemptResult (AttemptOutcome.response 500 bodyEmptyNested) = Except.error "top" ∧
    attemptResult (AttemptOutcome.response 500 bodyEmptyNested) ≠ Except.error "" := by
  refine ⟨rfl, rfl, ?_⟩
  intro h
  have h2 : (Except.error "top" : Except String JsonBody) = Except.error "" := h
  injection h2 with h3
  exact absurd h3 (by decide)

/-- C7 amended: for a non-2xx response the attempt error message is the
nested error-message field when present *and non-empty*, otherwise the
top-level message field when present *and non-empty*, otherwise
`"API call failed (<status>)"` with the numeric status; a JSON parse
failure becomes the attempt error unchanged. -/
theorem http_error_message_priority (st : Nat) (b : JsonBody) (m : String)
    (hst : ¬(200 ≤ st ∧ st ≤ 299)) :
    (∀ s, b.errMsg = some s → s ≠ "" →
      attemptResult (AttemptOutcome.response st b) = Except.error s) ∧
    ((b.errMsg = none ∨ b.errMsg = some "") →
      ∀ t, b.topMsg = some t → t ≠ "" →
        attemptResult (AttemptOutcome.response st b) = Except.error t) ∧
    ((b.errMsg = none ∨ b.errMsg = some "") →
      (b.topMsg = none ∨ b.topMsg = some "") →
      attemptResult (AttemptOutcome.response st b) =
        Except.error ("API call failed (" ++ toString st ++ ")")) ∧
    attemptResult (AttemptOutcome.parseError m) = Except.error m := by
  have hres : attemptResult (AttemptOutcome.response st b) =
      Except.error (httpErrorMessage st b) := by
    simp [attemptResult, hst]
  refine ⟨?_, ?_, ?_, rfl⟩
  · intro s hs hne
    rw [hres]
    unfold httpErrorMessage
    simp [hs, hne]
  · intro hor t ht hne
    rw [hres]
    unfold httpErrorMessage
    rcases hor with h | h <;> simp [h, ht, hne]
  · intro h1 h2
    rw [hres]
    unfold httpErrorMessage
    rcases h1 with h | h <;> rcases h2 with h3 | h3 <;> simp [h, h3]

/-- C7 amended witness: a 500 with no message fields yields the generic
fallback naming the status. -/
theorem http_error_message_priority_witness :
    attemptResult (AttemptOutcome.response 500 ⟨none, none, "b"⟩) =
      Except.error "API call failed (500)" := by
  have h := http_error_message_priority 500 ⟨none, none, "b"⟩ "pe" (by decide)
  exact h.2.2.1 (Or.inl rfl) (Or.inl rfl)

/-- C8 counterexample: in the claim's own scenario (first shared
candidate fails with HTTP 500 `"quota exceeded"`, second succeeds) the
audit sink receives three entries for two attempts — each attempt logs
one pre-attempt entry with status `"Success"` and a failed attempt logs
a second, error entry — so the sink sees one error entry but *two*
success-status entries, not one entry per attempt. -/
theorem failed_attempt_logs_two_entries :
    auditCount (fetchWithTokenRotation envScenario "CTX" none).2 = 3 ∧
    errorAuditCount (fetchWithTokenRotation envScenario "CTX" none).2 = 1 ∧
    successAuditCount (fetchWithTokenRotation envScenario "CTX" none).2 = 2 ∧
    (fetchWithTokenRotation envScenario "CTX" none).1 =
      Except.ok (⟨none, none, "okbody"⟩, "s2tok") := by
  refine ⟨rfl, rfl, rfl, rfl⟩

/-- C8 amended: every attempt logs exactly one pre-attempt entry
(status `"Success"`) and every failed attempt logs exactly one further
error entry.  Hence in a run where the first `k` attempts fail and
attempt `k` succeeds, the audit sink receives exactly `k` error
entries, `k + 1` success-status entries and `2k + 1` entries in
total. -/
theorem audit_entry_counts_per_attempt (env : Env) (ctx : String)
    (spec : Option String) (k : Nat) (body : JsonBody)
    (hk : k < (buildTokensToTry env spec).1.length)
    (hfail : ∀ j, j < k → attemptFails env j = true)
    (hok : attemptResult (env.fetchOutcome k) = Except.ok body) :
    errorAuditCount (fetchWithTokenRotation env ctx spec).2 = k ∧
    successAuditCount (fetchWithTokenRotation env ctx spec).2 = k + 1 ∧
    auditCount (fetchWithTokenRotation env ctx spec).2 = 2 * k + 1 := by
  have hne : (buildTokensToTry env spec).1.length ≠ 0 := by omega
  rw [fetchWithTokenRotation_run env ctx spec hne]
  have hfail0 : ∀ j, j < k → attemptFails env (0 + j) = true := by
    intro j hj; simpa using hfail j hj
  have hok0 : attemptResult (env.fetchOutcome (0 + k)) = Except.ok body := by
    simpa using hok
  obtain ⟨_, _, hec, hsc, hac⟩ :=
    attemptLoop_success env ctx (buildTokensToTry env spec).1 0 "" k hk body hfail0 hok0
  obtain ⟨_, hba, hbe, hbs, _⟩ := buildTokensToTry_no_loop_events env spec
  refine ⟨?_, ?_, ?_⟩ <;>
    simp only [errorAuditCount, successAuditCount, auditCount,
      List.countP_append] at hec hsc hac hba hbe hbs ⊢ <;> omega

/-- C8 amended witness: the scenario run logs one error entry, two
success-status entries and three entries in total. -/
theorem audit_entry_counts_per_attempt_witness :
    errorAuditCount (fetchWithTokenRotation envScenario "VEO" none).2 = 1 ∧
    successAuditCount (fetchWithTokenRotation envScenario "VEO" none).2 = 2 ∧
    auditCount (fetchWithTokenRotation envScenario "VEO" none).2 = 3 :=
  audit_entry_counts_per_attempt envScenario "VEO" none 1 ⟨none, none, "okbody"⟩
    (by decide) (by decide) rfl

/-- Any token returned by `getPersonalToken` carries the sentinel. -/
theorem getPersonalToken_createdAt (env : Env) (p : Token)
    (hp : getPersonalToken env = some p) : p.createdAt = "personal" := by
  cases he : env.personalAuthToken with
  | none => simp [getPersonalToken, he] at hp
  | some s =>
    by_cases hs : s = ""
    · simp [getPersonalToken, he, hs] at hp
    · simp [getPersonalToken, he, hs] at hp
      rw [← hp]

/-- With a personal token the rotation candidates are it followed by
the shared tokens used. -/
theorem build_none_personal (env : Env) (p : Token)
    (hp : getPersonalToken env = some p) :
    (buildTokensToTry env none).1 = p :: sharedUsed env := by
  have hpp : personalPart env = [p] := by unfold personalPart; rw [hp]
  have h := buildRotation_fst env
  show (buildRotation env).1 = _
  rw [h, hpp]
  rfl

/-- Without a personal token the rotation candidates are exactly the
shared tokens used. -/
theorem build_none_nopersonal (env : Env)
    (hp : getPersonalToken env = none) :
    (buildTokensToTry env none).1 = sharedUsed env := by
  have hpp : personalPart env = [] := by unfold personalPart; rw [hp]
  have h := buildRotation_fst env
  show (buildRotation env).1 = _
  rw [h, hpp]
  rfl

/-- The redacted token suffix never exceeds six characters. -/
theorem lastSix_length (s : String) : (lastSix s).length ≤ 6 := by
  unfold lastSix
  by_cases h : s.length ≤ 6
  · simp [h]
  · simp only [h, if_false]
    rw [String.drop_eq]
    show (s.1.drop (s.length - 6)).length ≤ 6
    rw [List.length_drop]
    have hd : s.length = s.1.length := rfl
    omega

/-- C9 counterexample: in the explicit-credential path with a personal
token configured, the single candidate (which is not a shared
credential at all — the candidate set is the explicit singleton) is
audited with the label `"Shared Token #0"`: the index arithmetic
`i - (personal ? 1 : 0) + 1` yields 0, which is not a 1-based position
among the shared credentials, nor the personal label. -/
theorem explicit_attempt_labeled_shared_zero :
    (buildTokensToTry envBoth (some "xtoken")).1 = [⟨"xtoken", "N/A"⟩] ∧
    Event.audit
      { model := "CTX", prompt := "Attempt with Shared Token #0",
        output := "...xtoken", tokenCount := 0, status := "Success",
        error := none } ∈
      (fetchWithTokenRotation envBoth "CTX" (some "xtoken")).2 := by
  refine ⟨rfl, ?_⟩
  decide

/-- C9 amended: in the rotation path, provided no shared candidate
carries the `createdAt` sentinel, every reached attempt logs a
pre-attempt entry whose credential is redacted to `"..."` plus its last
(at most six) characters, labeled `"Personal Token"` for the personal
candidate and `"Shared Token #k"` with `k` the candidate's 1-based
position among the shared tokens for shared candidates; in the
explicit path the label can be the out-of-range `"Shared Token #0"`. -/
theorem pre_attempt_entry_redacts_and_labels (env : Env) (ctx : String)
    (hsh : ∀ c ∈ sharedUsed env, c.createdAt ≠ "personal") :
    (∀ p, getPersonalToken env = some p →
      Event.audit
        { model := ctx, prompt := "Attempt with Personal Token",
          output := "..." ++ lastSix p.token, tokenCount := 0,
          status := "Success", error := none } ∈
        (fetchWithTokenRotation env ctx none).2) ∧
    (∀ p, getPersonalToken env = some p →
      ∀ m, ∀ hm : m < (sharedUsed env).length,
        (∀ j, j < m + 1 → attemptFails env j = true) →
        Event.audit
          { model := ctx,
            prompt := "Attempt with Shared Token #" ++ toString (m + 1),
            output := "..." ++ lastSix ((sharedUsed env).get ⟨m, hm⟩).token,
            tokenCount := 0, status := "Success", error := none } ∈
          (fetchWithTokenRotation env ctx none).2) ∧
    (getPersonalToken env = none →
      ∀ m, ∀ hm : m < (sharedUsed env).length,
        (∀ j, j < m → attemptFails env j = true) →
        Event.audit
          { model := ctx,
            prompt := "Attempt with Shared Token #" ++ toString (m + 1),
            output := "..." ++ lastSix ((sharedUsed env).get ⟨m, hm⟩).token,
            tokenCount := 0, status := "Success", error := none } ∈
          (fetchWithTokenRotation env ctx none).2) ∧
    (∀ s, (lastSix s).length ≤ 6) := by
  refine ⟨?_, ?_, ?_, fun s => lastSix_length s⟩
  · intro p hp
    have hpc : p.createdAt = "personal" := getPersonalToken_createdAt env p hp
    have hlist := build_none_personal env p hp
    have hlen : (buildTokensToTry env none).1.length ≠ 0 := by rw [hlist]; simp
    rw [fetchWithTokenRotation_run env ctx none hlen, hlist]
    have hk0 : (0 : Nat) < (p :: sharedUsed env).length := by simp
    have hmem := attemptLoop_pre_mem env ctx (p :: sharedUsed env) 0 "" 0 hk0
      (by intro j hj; exact absurd hj (by omega))
    refine List.mem_append_right _ ?_
    have hid : tokenIdentifier env 0 p = "Personal Token" := by
      unfold tokenIdentifier
      rw [if_pos hpc]
    have heq : preEntry env ctx (0 + 0) ((p :: sharedUsed env).get ⟨0, hk0⟩) =
        { model := ctx, prompt := "Attempt with Personal Token",
          output := "..." ++ lastSix p.token, tokenCount := 0,
          status := "Success", error := none } := by
      show preEntry env ctx 0 p = _
      unfold preEntry
      rw [hid]
      rfl
    rw [← heq]
    exact hmem
  · intro p hp m hm hreach
    have hlist := build_none_personal env p hp
    have hlen : (buildTokensToTry env none).1.length ≠ 0 := by rw [hlist]; simp
    rw [fetchWithTokenRotation_run env ctx none hlen, hlist]
    have hk' : m + 1 < (p :: sharedUsed env).length := by
      simpa using Nat.succ_lt_succ hm
    have hmem := attemptLoop_pre_mem env ctx (p :: sharedUsed env) 0 "" (m + 1) hk'
      (by intro j hj; simpa using hreach j hj)
    simp only [Nat.zero_add] at hmem
    refine List.mem_append_right _ ?_
    have hcs : ((sharedUsed env).get ⟨m, hm⟩).createdAt ≠ "personal" :=
      hsh _ (List.get_mem _ _ hm)
    have hid : tokenIdentifier env (m + 1) ((sharedUsed env).get ⟨m, hm⟩) =
        "Shared Token #" ++ toString (m + 1) := by
      unfold tokenIdentifier
      rw [if_neg hcs, hp]
      show "Shared Token #" ++ toString (((m + 1 : Nat) : Int) - 1 + 1) = _
      rw [show ((m + 1 : Nat) : Int) - 1 + 1 = ((m + 1 : Nat) : Int) by omega]
      rfl
    have heq : preEntry env ctx (m + 1) ((p :: sharedUsed env).get ⟨m + 1, hk'⟩) =
        { model := ctx,
          prompt := "Attempt with Shared Token #" ++ toString (m + 1),
          output := "..." ++ lastSix ((sharedUsed env).get ⟨m, hm⟩).token,
          tokenCount := 0, status := "Success", error := none } := by
      show preEntry env ctx (m + 1) ((sharedUsed env).get ⟨m, hm⟩) = _
      unfold preEntry
      rw [hid, ← String.append_assoc]
      rfl
    rw [← heq]
    exact hmem
  · intro hp m hm hreach
    have hlist := build_none_nopersonal env hp
    have hlen : (buildTokensToTry env none).1.length ≠ 0 := by
      rw [hlist]; intro h; omega
    rw [fetchWithTokenRotation_run env ctx none hlen, hlist]
    have hmem := attemptLoop_pre_mem env ctx (sharedUsed env) 0 "" m hm
      (by intro j hj; simpa using hreach j hj)
    simp only [Nat.zero_add] at hmem
    refine List.mem_append_right _ ?_
    have hcs : ((sharedUsed env).get ⟨m, hm⟩).createdAt ≠ "personal" :=
      hsh _ (List.get_mem _ _ hm)
    have hid : tokenIdentifier env m ((sharedUsed env).get ⟨m, hm⟩) =
        "Shared Token #" ++ toString (m + 1) := by
      unfold tokenIdentifier
      rw [if_neg hcs, hp]
      show "Shared Token #" ++ toString (((m : Nat) : Int) - 0 + 1) = _
      rw [show ((m : Nat) : Int) - 0 + 1 = ((m + 1 : Nat) : Int) by omega]
      rfl
    have heq : preEntry env ctx m ((sharedUsed env).get ⟨m, hm⟩) =
        { model := ctx,
          prompt := "Attempt with Shared Token #" ++ toString (m + 1),
          output := "..." ++ lastSix ((sharedUsed env).get ⟨m, hm⟩).token,
          tokenCount := 0, status := "Success", error := none } := by
      show preEntry env ctx m ((sharedUsed env).get ⟨m, hm⟩) = _
      unfold preEntry
      rw [hid, ← String.append_assoc]
      rfl
    rw [← heq]
    exact hmem

/-- C9 amended witness: the shared fallback of the `"secret"` personal
token is reached after the personal attempt fails and is logged as
`"Shared Token #1"` with the redacted suffix `...sh1`. -/
theorem pre_attempt_entry_redacts_and_labels_witness :
    Event.audit
      { model := "CTX", prompt := "Attempt with Shared Token #1",
        output := "...sh1", tokenCount := 0, status := "Success",
        error := none } ∈
      (fetchWithTokenRotation envSecret "CTX" none).2 := by
  have h := pre_attempt_entry_redacts_and_labels envSecret "CTX" (by decide)
  exact h.2.1 ⟨"secret", "personal"⟩ rfl 0 (by decide) (by decide)

end TokenRotation
